import Mathlib

/-!
Shallow embedding of the drawing engine of `src/app/page.tsx` (the `DrawingApp`
component): pointer gesture handling (`startDrawing`, `draw`, `endDrawing`),
the layer store (`layers`, `activeLayer`, `addLayer`, `selectLayer`,
`loadLayer`, `clearCanvas`) and the history manager (`history`, `redoStack`,
`undo`, `redo`).

Modelling choices, uniform across the development:
 - Surface coordinates are exact rationals (`Rat`); a canvas is a total colour
   assignment `Point → Option String` (`none` = transparent pixel).
 - The opaque snapshot string produced by `canvas.toDataURL()` is modelled by
   `Buffer.enc c` for the canvas `c` it encodes; the empty string `""` (the
   initial `data` of every layer, and the fallback `|| ""` in `undo`) is
   `Buffer.empty`.  `decode` inverts the encoding; decoding `Buffer.empty`
   yields the blank canvas.  Restores (`img.onload` callbacks in `undo`,
   `redo`, `loadLayer`) are modelled as completing synchronously before the
   next operation runs, i.e. every restore is allowed to complete.
 - Canvas 2D stroking primitives are given their exact pixel-set semantics:
   `clearRect` clears an axis-aligned rectangle, a brush segment with round
   caps paints the capsule of radius `lineWidth/2` around the segment,
   `strokeRect` paints the band of half-width `lineWidth/2` around the
   rectangle outline, and `arc`+`stroke` paints the annulus of half-width
   `lineWidth/2` around the circle (expressed without square roots through
   squared distances).
-/

abbrev Point : Type := Rat × Rat

/-- A canvas assigns to every surface point either a colour or `none`
(transparent).  This is the pixel content of the visible `<canvas>`. -/
abbrev Canvas : Type := Point → Option String

/-- The fully transparent canvas (state after `ctx.clearRect` over the whole
surface, and the content encoded by an empty layer). -/
def blankCanvas : Canvas := fun _ => none

/-- The opaque raster encoding handled by the component: `Buffer.empty` models
the empty string `""`, `Buffer.enc c` models `canvas.toDataURL()` taken when
the visible canvas content was `c`. -/
inductive Buffer : Type where
  | empty : Buffer
  | enc : Canvas → Buffer

/-- Decoding a stored buffer back to pixels (the `new Image(); img.src = …;
drawImage` round trip, assumed lossless per the snapshot contract and assumed
to complete). `Buffer.empty` (the string `""`) decodes to the blank canvas. -/
def decode : Buffer → Canvas
  | Buffer.empty => blankCanvas
  | Buffer.enc c => c

/-- The four entries of the `tools` array of `page.tsx`. -/
inductive Tool : Type where
  | brush : Tool
  | rectangle : Tool
  | circle : Tool
  | eraser : Tool
deriving DecidableEq

/-- One element of the `layers` state array:
`{ id: number, name: string, data: string }`. -/
structure Layer : Type where
  id : Nat
  name : String
  data : Buffer

/-- The engine-relevant React state of `DrawingApp`, plus the visible canvas
pixels and the current 2D-context path (accumulated by `moveTo`/`lineTo`). -/
structure AppState : Type where
  isDrawing : Bool
  tool : Tool
  color : String
  brushSize : Rat
  layers : List Layer
  activeLayer : Nat
  history : List Buffer
  redoStack : List Buffer
  startPos : Option Point
  path : List Point
  canvas : Canvas

/-- `useState` initial values of `DrawingApp` (one layer, empty history). -/
def initialState : AppState :=
  { isDrawing := false
    tool := Tool.brush
    color := "#000000"
    brushSize := 5
    layers := [{ id := 1, name := "Layer 1", data := Buffer.empty }]
    activeLayer := 0
    history := []
    redoStack := []
    startPos := none
    path := []
    canvas := blankCanvas }

/-- `ctx.clearRect(x, y, w, h)`: every point of the rectangle spanned from
`(x, y)` by `(w, h)` becomes transparent; all other points are untouched. -/
def clearRect (c : Canvas) (x y w h : Rat) : Canvas :=
  fun q => if x ≤ q.1 ∧ q.1 ≤ x + w ∧ y ≤ q.2 ∧ q.2 ≤ y + h then none else c q

/-- Squared distance from `pt` to the segment `p q` (projection parameter
clamped to `[0,1]`); used for the round-cap stroke of a polyline segment. -/
def distSqPointSeg (pt p q : Point) : Rat :=
  let dx := q.1 - p.1
  let dy := q.2 - p.2
  let len2 := dx * dx + dy * dy
  if len2 = 0 then (pt.1 - p.1) ^ 2 + (pt.2 - p.2) ^ 2
  else
    let t := ((pt.1 - p.1) * dx + (pt.2 - p.2) * dy) / len2
    let u := max 0 (min 1 t)
    (pt.1 - (p.1 + u * dx)) ^ 2 + (pt.2 - (p.2 + u * dy)) ^ 2

/-- Painting one segment of a stroked path with `lineCap = "round"`: the
points within `w/2` of the segment get the stroke colour. -/
def strokeSegment (c : Canvas) (p q : Point) (col : String) (w : Rat) : Canvas :=
  fun pt => if distSqPointSeg pt p q ≤ (w / 2) ^ 2 then some col else c pt

/-- `ctx.stroke()` on the current path: paints every consecutive segment of
the path (the brush case re-strokes the whole accumulated path each call). -/
def strokePath (c : Canvas) (path : List Point) (col : String) (w : Rat) : Canvas :=
  match path with
  | [] => c
  | [_] => c
  | p :: q :: rest => strokePath (strokeSegment c p q col w) (q :: rest) col w

/-- `ctx.strokeRect(x, y, w, h)` with `lineWidth = lw`: paints the band of
half-width `lw/2` around the outline of the (normalised) rectangle. -/
def strokeRectStroke (c : Canvas) (x y w h lw : Rat) (col : String) : Canvas :=
  let x1 := min x (x + w)
  let x2 := max x (x + w)
  let y1 := min y (y + h)
  let y2 := max y (y + h)
  fun pt =>
    if (x1 - lw / 2 ≤ pt.1 ∧ pt.1 ≤ x2 + lw / 2 ∧
        y1 - lw / 2 ≤ pt.2 ∧ pt.2 ≤ y2 + lw / 2) ∧
       ¬(x1 + lw / 2 < pt.1 ∧ pt.1 < x2 - lw / 2 ∧
         y1 + lw / 2 < pt.2 ∧ pt.2 < y2 - lw / 2)
    then some col else c pt

/-- `ctx.arc(cx, cy, r, 0, 2π); ctx.stroke()` with `lineWidth = lw`, where the
radius is `Math.hypot`, i.e. `r = sqrt r2`: a point at squared distance `d2`
from the centre is painted iff `|sqrt d2 - sqrt r2| ≤ lw/2`, which is encoded
without square roots as `A ≤ 0 ∨ A² ≤ 4·d2·r2` for `A = d2 + r2 - (lw/2)²`. -/
def strokeCircle (c : Canvas) (center : Point) (r2 lw : Rat) (col : String) : Canvas :=
  fun pt =>
    let d2 := (pt.1 - center.1) ^ 2 + (pt.2 - center.2) ^ 2
    let a := d2 + r2 - (lw / 2) ^ 2
    if a ≤ 0 ∨ a ^ 2 ≤ 4 * d2 * r2 then some col else c pt

/-- `newLayers[i].data = b` after `const newLayers = [...layers]`: replaces the
`data` field of the layer at index `i`, keeping `id` and `name`.  Out of range
(never reached by the component's own calls) the list is left unchanged. -/
def setLayerData (ls : List Layer) (i : Nat) (b : Buffer) : List Layer :=
  match ls.get? i with
  | some l => ls.set i { l with data := b }
  | none => ls

/-- `layers[activeLayer].data`: the active layer's stored buffer (defaulting
to the empty buffer when the index is out of range). -/
def activeData (s : AppState) : Buffer :=
  ((s.layers.get? s.activeLayer).map Layer.data).getD Buffer.empty

/-- `startDrawing`: records the anchor in `startPos`, sets `isDrawing`; for
the brush, `beginPath(); moveTo(x, y)` resets the context path to the anchor.
No pixel of the canvas is modified on press. -/
def startDrawing (s : AppState) (p : Point) : AppState :=
  let s' := if s.tool = Tool.brush then { s with path := [p] } else s
  { s' with startPos := some p, isDrawing := true }

/-- `draw` (the move handler): no-op unless a gesture is active; brush extends
the path by the current point and strokes the whole path; eraser clears the
`brushSize × brushSize` square at the current point; rectangle/circle do
nothing on move. -/
def draw (s : AppState) (p : Point) : AppState :=
  if s.isDrawing = true then
    match s.startPos with
    | some _ =>
      match s.tool with
      | Tool.brush =>
        let newPath := s.path ++ [p]
        { s with path := newPath,
                 canvas := strokePath s.canvas newPath s.color s.brushSize }
      | Tool.eraser =>
        { s with canvas := clearRect s.canvas (p.1 - s.brushSize / 2)
                   (p.2 - s.brushSize / 2) s.brushSize s.brushSize }
      | _ => s
    | none => s
  else s

/-- `endDrawing`: no-op unless a gesture is active.  Uses the event position
(or `startPos` when the event carries none); rectangle/circle commit their
outline to the canvas (after `beginPath`, which resets the path); then the
canvas is encoded (`toDataURL`), written into the active layer, appended to
`history`, and the redo stack is cleared. -/
def endDrawing (s : AppState) (e : Option Point) : AppState :=
  if s.isDrawing = true then
    match s.startPos with
    | some sp =>
      let pos := e.getD sp
      let c' :=
        match s.tool with
        | Tool.rectangle =>
          strokeRectStroke s.canvas sp.1 sp.2 (pos.1 - sp.1) (pos.2 - sp.2)
            s.brushSize s.color
        | Tool.circle =>
          strokeCircle s.canvas sp ((pos.1 - sp.1) ^ 2 + (pos.2 - sp.2) ^ 2)
            s.brushSize s.color
        | _ => s.canvas
      let path' :=
        match s.tool with
        | Tool.rectangle => []
        | Tool.circle => []
        | _ => s.path
      let snap := Buffer.enc c'
      { s with canvas := c'
               path := path'
               layers := setLayerData s.layers s.activeLayer snap
               history := s.history ++ [snap]
               redoStack := []
               isDrawing := false
               startPos := none }
    | none => s
  else s

/-- `undo`: no-op on empty history; otherwise drops the last history entry,
prepends the active layer's current buffer to the redo stack, and restores
canvas and active layer from the new last entry (or `""` when none is left). -/
def undo (s : AppState) : AppState :=
  if s.history.length = 0 then s
  else
    let newHistory := s.history.dropLast
    let b := newHistory.getLast?.getD Buffer.empty
    { s with history := newHistory
             redoStack := activeData s :: s.redoStack
             canvas := decode b
             layers := setLayerData s.layers s.activeLayer b }

/-- `redo`: no-op on empty redo stack; otherwise takes the FRONT entry of the
redo stack, appends it to `history`, and restores canvas and active layer
from it. -/
def redo (s : AppState) : AppState :=
  match s.redoStack with
  | [] => s
  | next :: rest =>
    { s with redoStack := rest
             history := s.history ++ [next]
             canvas := decode next
             layers := setLayerData s.layers s.activeLayer next }

/-- `clearCanvas`: clears the visible surface and empties the active layer's
stored buffer; history and redo stack are untouched. -/
def clearCanvas (s : AppState) : AppState :=
  { s with canvas := blankCanvas
           layers := setLayerData s.layers s.activeLayer Buffer.empty }

/-- `addLayer`: appends `{ id: layers.length + 1, name: "Layer " + id,
data: "" }`; the active index is unchanged. -/
def addLayer (s : AppState) : AppState :=
  let newId := s.layers.length + 1
  { s with layers := s.layers ++
      [{ id := newId, name := "Layer " ++ Nat.repr newId, data := Buffer.empty }] }

/-- `selectLayer`: `(index) => setActiveLayer(index)` — stores the index as
given, with no range check of any kind. -/
def selectLayer (s : AppState) (i : Nat) : AppState :=
  { s with activeLayer := i }

/-- `loadLayer`: reads `layers[activeLayer].data` and decodes it onto the
canvas.  When `activeLayer` is out of range the JavaScript property access
`layers[activeLayer].data` fails (undefined dereference); this is modelled by
returning `none` instead of a decoded canvas. -/
def loadLayer (s : AppState) : Option Canvas :=
  (s.layers.get? s.activeLayer).map (fun l => decode l.data)

/-- The command surface reachable from the UI: pointer events, tool/colour/
size configuration, history commands and layer commands. -/
inductive Op : Type where
  | press : Point → Op
  | move : Point → Op
  | release : Option Point → Op
  | setTool : Tool → Op
  | setColor : String → Op
  | setBrushSize : Rat → Op
  | undoOp : Op
  | redoOp : Op
  | clearOp : Op
  | addLayerOp : Op
  | selectLayerOp : Nat → Op

/-- One step of the event loop.  `selectLayerOp` also performs the `useEffect`
reload of the selected layer onto the canvas (a failed reload — out of range
or incomplete decode — leaves the canvas as it was). -/
def step (s : AppState) : Op → AppState
  | Op.press p => startDrawing s p
  | Op.move p => draw s p
  | Op.release e => endDrawing s e
  | Op.setTool t => { s with tool := t }
  | Op.setColor c => { s with color := c }
  | Op.setBrushSize n => { s with brushSize := n }
  | Op.undoOp => undo s
  | Op.redoOp => redo s
  | Op.clearOp => clearCanvas s
  | Op.addLayerOp => addLayer s
  | Op.selectLayerOp i =>
    { s with activeLayer := i
             canvas := (loadLayer (selectLayer s i)).getD s.canvas }

/-- Running a list of commands from the initial state. -/
def run (ops : List Op) : AppState := ops.foldl step initialState

/-- A state the component can actually be in. -/
def Reachable (s : AppState) : Prop := ∃ ops, run ops = s

/-- One committed gesture: the tool/colour/size in force, the press point, the
intermediate move points, and the release point. -/
structure Gesture : Type where
  tool : Tool
  color : String
  width : Rat
  start : Point
  moves : List Point
  finish : Point

/-- Press, moves, release — one full committing gesture, with the drawing
configuration set beforehand (as the UI does between gestures). -/
def commitGesture (s : AppState) (g : Gesture) : AppState :=
  endDrawing
    (g.moves.foldl draw
      (startDrawing { s with tool := g.tool, color := g.color, brushSize := g.width }
        g.start))
    (some g.finish)

/-- A sequence of committed gestures with no other commands interleaved. -/
def runGestures (s : AppState) (gs : List Gesture) : AppState :=
  gs.foldl commitGesture s

/-- `undo` iterated. -/
def undoN : Nat → AppState → AppState
  | 0, s => s
  | n + 1, s => undoN n (undo s)

/-- `redo` iterated. -/
def redoN : Nat → AppState → AppState
  | 0, s => s
  | n + 1, s => redoN n (redo s)

/-- The axis-aligned square of side `w` centred at `p`, as a predicate on
points (the region the specification assigns to one eraser application). -/
abbrev inSquare (p : Point) (w : Rat) (q : Point) : Prop :=
  p.1 - w / 2 ≤ q.1 ∧ q.1 ≤ p.1 + w / 2 ∧ p.2 - w / 2 ≤ q.2 ∧ q.2 ≤ p.2 + w / 2

/-! ### Helper lemmas -/

lemma setLayerData_length (ls : List Layer) (i : Nat) (b : Buffer) :
    (setLayerData ls i b).length = ls.length := by
  unfold setLayerData
  cases h : ls.get? i with
  | none => rfl
  | some l => simp

lemma setLayerData_get?_self (ls : List Layer) (i : Nat) (b : Buffer)
    (h : i < ls.length) :
    ((setLayerData ls i b).get? i).map Layer.data = some b := by
  obtain ⟨l, hl⟩ : ∃ l, ls.get? i = some l := by
    rw [List.get?_eq_get h]
    exact ⟨_, rfl⟩
  unfold setLayerData
  rw [hl, List.get?_set_eq_of_lt _ h]
  rfl

lemma setLayerData_get?_ne (ls : List Layer) (i : Nat) (b : Buffer) (j : Nat)
    (h : j ≠ i) :
    (setLayerData ls i b).get? j = ls.get? j := by
  unfold setLayerData
  cases hl : ls.get? i with
  | none => rfl
  | some l => exact List.get?_set_ne _ _ (fun he => h he.symm)

lemma setLayerData_id_name (ls : List Layer) (i : Nat) (b : Buffer) (j : Nat) :
    ((setLayerData ls i b).get? j).map Layer.id = (ls.get? j).map Layer.id ∧
    ((setLayerData ls i b).get? j).map Layer.name = (ls.get? j).map Layer.name := by
  unfold setLayerData
  cases hl : ls.get? i with
  | none => exact ⟨rfl, rfl⟩
  | some l =>
    by_cases hj : j = i
    · subst hj
      obtain ⟨hlt, -⟩ := List.get?_eq_some.mp hl
      rw [List.get?_set_eq_of_lt _ hlt, hl]
      exact ⟨rfl, rfl⟩
    · rw [List.get?_set_ne _ _ (fun he => hj he.symm)]
      exact ⟨rfl, rfl⟩

lemma startDrawing_fields (s : AppState) (p : Point) :
    (startDrawing s p).isDrawing = true ∧ (startDrawing s p).startPos = some p ∧
    (startDrawing s p).history = s.history ∧
    (startDrawing s p).redoStack = s.redoStack ∧
    (startDrawing s p).layers = s.layers ∧
    (startDrawing s p).activeLayer = s.activeLayer ∧
    (startDrawing s p).tool = s.tool ∧
    (startDrawing s p).canvas = s.canvas := by
  unfold startDrawing
  split <;> exact ⟨rfl, rfl, rfl, rfl, rfl, rfl, rfl, rfl⟩

lemma draw_fields (s : AppState) (p : Point) :
    (draw s p).isDrawing = s.isDrawing ∧ (draw s p).startPos = s.startPos ∧
    (draw s p).history = s.history ∧
    (draw s p).redoStack = s.redoStack ∧
    (draw s p).layers = s.layers ∧
    (draw s p).activeLayer = s.activeLayer ∧
    (draw s p).tool = s.tool := by
  unfold draw
  split
  · split
    · split <;> exact ⟨rfl, rfl, rfl, rfl, rfl, rfl, rfl⟩
    · exact ⟨rfl, rfl, rfl, rfl, rfl, rfl, rfl⟩
  · exact ⟨rfl, rfl, rfl, rfl, rfl, rfl, rfl⟩

lemma foldl_draw_fields (ms : List Point) (s : AppState) :
    ((ms.foldl draw s).isDrawing = s.isDrawing ∧
     (ms.foldl draw s).startPos = s.startPos) ∧
    (ms.foldl draw s).history = s.history ∧
    (ms.foldl draw s).redoStack = s.redoStack ∧
    (ms.foldl draw s).layers = s.layers ∧
    (ms.foldl draw s).activeLayer = s.activeLayer ∧
    (ms.foldl draw s).tool = s.tool := by
  induction ms generalizing s with
  | nil => exact ⟨⟨rfl, rfl⟩, rfl, rfl, rfl, rfl, rfl⟩
  | cons m ms ih =>
    obtain ⟨h1, h2, h3, h4, h5, h6, h7⟩ := draw_fields s m
    obtain ⟨⟨g1, g2⟩, g3, g4, g5, g6, g7⟩ := ih (draw s m)
    exact ⟨⟨g1.trans h1, g2.trans h2⟩, g3.trans h3, g4.trans h4, g5.trans h5,
      g6.trans h6, g7.trans h7⟩

lemma endDrawing_spec (s : AppState) (sp : Point) (e : Option Point)
    (hd : s.isDrawing = true) (hp : s.startPos = some sp)
    (hr : s.activeLayer < s.layers.length) :
    (endDrawing s e).history = s.history ++ [Buffer.enc ((endDrawing s e).canvas)] ∧
    activeData (endDrawing s e) = Buffer.enc ((endDrawing s e).canvas) ∧
    (endDrawing s e).redoStack = [] ∧
    (endDrawing s e).activeLayer = s.activeLayer ∧
    (endDrawing s e).layers.length = s.layers.length ∧
    (endDrawing s e).isDrawing = false := by
  unfold endDrawing
  rw [hd, hp]
  refine ⟨rfl, ?_, rfl, rfl, setLayerData_length _ _ _, rfl⟩
  unfold activeData
  simp only [if_true]
  rw [setLayerData_get?_self _ _ _ hr]
  rfl

lemma undo_of_empty (s : AppState) (h : s.history = []) : undo s = s := by
  unfold undo
  rw [h]
  rfl

lemma redo_of_empty (s : AppState) (h : s.redoStack = []) : redo s = s := by
  unfold redo
  rw [h]

lemma undo_spec (s : AppState) (hh : s.history ≠ [])
    (hr : s.activeLayer < s.layers.length) :
    (undo s).history = s.history.dropLast ∧
    (undo s).redoStack = activeData s :: s.redoStack ∧
    activeData (undo s) = s.history.dropLast.getLast?.getD Buffer.empty ∧
    (undo s).activeLayer = s.activeLayer ∧
    (undo s).layers.length = s.layers.length ∧
    (undo s).canvas = decode (s.history.dropLast.getLast?.getD Buffer.empty) := by
  unfold undo
  rw [if_neg (by simpa using hh)]
  refine ⟨rfl, rfl, ?_, rfl, setLayerData_length _ _ _, rfl⟩
  unfold activeData
  simp only
  rw [setLayerData_get?_self _ _ _ hr]
  rfl

lemma redo_spec (s : AppState) (next : Buffer) (rest : List Buffer)
    (h : s.redoStack = next :: rest)
    (hr : s.activeLayer < s.layers.length) :
    (redo s).redoStack = rest ∧
    (redo s).history = s.history ++ [next] ∧
    activeData (redo s) = next ∧
    (redo s).activeLayer = s.activeLayer ∧
    (redo s).layers.length = s.layers.length ∧
    (redo s).canvas = decode next := by
  unfold redo
  rw [h]
  refine ⟨rfl, rfl, ?_, rfl, setLayerData_length _ _ _, rfl⟩
  unfold activeData
  simp only
  rw [setLayerData_get?_self _ _ _ hr]
  rfl

lemma getLast?_getD_cons (a : Buffer) (l : List Buffer) (d : Buffer) :
    (a :: l).getLast?.getD d = l.getLast?.getD a := by
  cases l with
  | nil => rfl
  | cons b bs =>
    rw [List.getLast?_cons_cons, List.getLast?_eq_getLast (b :: bs) (by simp)]
    rfl

lemma commitGesture_spec (s : AppState) (g : Gesture)
    (hr : s.activeLayer < s.layers.length) :
    (commitGesture s g).history
      = s.history ++ [Buffer.enc ((commitGesture s g).canvas)] ∧
    activeData (commitGesture s g) = Buffer.enc ((commitGesture s g).canvas) ∧
    (commitGesture s g).redoStack = [] ∧
    (commitGesture s g).activeLayer = s.activeLayer ∧
    (commitGesture s g).layers.length = s.layers.length := by
  unfold commitGesture
  set s0 : AppState :=
    { s with tool := g.tool, color := g.color, brushSize := g.width } with hs0
  set s1 := startDrawing s0 g.start with hs1
  set s2 := g.moves.foldl draw s1 with hs2
  obtain ⟨hd1, hp1, hh1, hrd1, hl1, ha1, -, -⟩ := startDrawing_fields s0 g.start
  obtain ⟨⟨hd2, hp2⟩, hh2, hrd2, hl2, ha2, -⟩ := foldl_draw_fields g.moves s1
  rw [← hs1] at hd1 hp1 hh1 hl1 ha1
  rw [← hs2] at hd2 hp2 hh2 hl2 ha2
  have hd : s2.isDrawing = true := hd2.trans hd1
  have hp : s2.startPos = some g.start := hp2.trans hp1
  have hh : s2.history = s.history := (hh2.trans hh1).trans rfl
  have hl : s2.layers = s.layers := (hl2.trans hl1).trans rfl
  have ha : s2.activeLayer = s.activeLayer := (ha2.trans ha1).trans rfl
  have hr2 : s2.activeLayer < s2.layers.length := by
    rw [ha, hl]
    exact hr
  obtain ⟨e1, e2, e3, e4, e5, e6⟩ := endDrawing_spec s2 g.start (some g.finish) hd hp hr2
  refine ⟨?_, e2, e3, ?_, ?_⟩
  · rw [e1, hh]
  · rw [e4, ha]
  · rw [e5, hl]

lemma runGestures_spec (gs : List Gesture) (s : AppState)
    (hr : s.activeLayer < s.layers.length)
    (hc : activeData s = s.history.getLast?.getD Buffer.empty)
    (hrd : s.redoStack = []) :
    (runGestures s gs).activeLayer = s.activeLayer ∧
    (runGestures s gs).layers.length = s.layers.length ∧
    (runGestures s gs).history.length = s.history.length + gs.length ∧
    activeData (runGestures s gs)
      = (runGestures s gs).history.getLast?.getD Buffer.empty ∧
    (runGestures s gs).redoStack = [] := by
  induction gs generalizing s with
  | nil => exact ⟨rfl, rfl, by simp [runGestures], hc, hrd⟩
  | cons g gs ih =>
    have hstep : runGestures s (g :: gs) = runGestures (commitGesture s g) gs := rfl
    obtain ⟨c1, c2, c3, c4, c5⟩ := commitGesture_spec s g hr
    have hr' : (commitGesture s g).activeLayer < (commitGesture s g).layers.length := by
      rw [c4, c5]
      exact hr
    have hc' : activeData (commitGesture s g)
        = (commitGesture s g).history.getLast?.getD Buffer.empty := by
      rw [c2, c1, List.getLast?_concat]
      rfl
    obtain ⟨i1, i2, i3, i4, i5⟩ := ih (commitGesture s g) hr' hc' c3
    rw [hstep]
    refine ⟨i1.trans c4, i2.trans c5, ?_, i4, i5⟩
    rw [i3, c1]
    simp only [List.length_append, List.length_cons, List.length_nil]
    omega

lemma undoN_spec (n : Nat) (s : AppState)
    (hr : s.activeLayer < s.layers.length)
    (hc : activeData s = s.history.getLast?.getD Buffer.empty)
    (hn : s.history.length = n) :
    (undoN n s).history = [] ∧
    (undoN n s).redoStack = s.history ++ s.redoStack ∧
    activeData (undoN n s) = Buffer.empty ∧
    (undoN n s).activeLayer = s.activeLayer ∧
    (undoN n s).layers.length = s.layers.length := by
  induction n generalizing s with
  | zero =>
    have h0 : s.history = [] := List.length_eq_zero.mp hn
    refine ⟨h0, by rw [h0]; rfl, ?_, rfl, rfl⟩
    show activeData s = Buffer.empty
    rw [hc, h0]
    rfl
  | succ n ih =>
    have hne : s.history ≠ [] := by
      intro h
      rw [h] at hn
      simp at hn
    obtain ⟨u1, u2, u3, u4, u5, -⟩ := undo_spec s hne hr
    have hr' : (undo s).activeLayer < (undo s).layers.length := by
      rw [u4, u5]
      exact hr
    have hc' : activeData (undo s) = (undo s).history.getLast?.getD Buffer.empty := by
      rw [u3, u1]
    have hn' : (undo s).history.length = n := by
      rw [u1, List.length_dropLast, hn]
      rfl
    obtain ⟨i1, i2, i3, i4, i5⟩ := ih (undo s) hr' hc' hn'
    have hstep : undoN (n + 1) s = undoN n (undo s) := rfl
    rw [hstep]
    refine ⟨i1, ?_, i3, i4.trans u4, i5.trans u5⟩
    rw [i2, u2, u1, hc, List.getLast?_eq_getLast s.history hne]
    show s.history.dropLast ++ s.history.getLast hne :: s.redoStack
        = s.history ++ s.redoStack
    rw [← List.singleton_append, ← List.append_assoc,
      List.dropLast_append_getLast hne]

lemma redoN_spec (es : List Buffer) (s : AppState)
    (hr : s.activeLayer < s.layers.length)
    (hrd : s.redoStack = es) :
    (redoN es.length s).history = s.history ++ es ∧
    (redoN es.length s).redoStack = [] ∧
    activeData (redoN es.length s) = es.getLast?.getD (activeData s) ∧
    (redoN es.length s).activeLayer = s.activeLayer ∧
    (redoN es.length s).layers.length = s.layers.length := by
  induction es generalizing s with
  | nil => exact ⟨by simp [redoN], hrd, rfl, rfl, rfl⟩
  | cons nxt rest ih =>
    obtain ⟨r1, r2, r3, r4, r5, -⟩ := redo_spec s nxt rest hrd hr
    have hr' : (redo s).activeLayer < (redo s).layers.length := by
      rw [r4, r5]
      exact hr
    obtain ⟨i1, i2, i3, i4, i5⟩ := ih (redo s) hr' r1
    have hstep : redoN (nxt :: rest).length s = redoN rest.length (redo s) := rfl
    rw [hstep]
    refine ⟨?_, i2, ?_, i4.trans r4, i5.trans r5⟩
    · rw [i1, r2, List.append_assoc, List.singleton_append]
    · rw [i3, r3, getLast?_getD_cons]

lemma endDrawing_redoStack (s : AppState) (sp : Point) (e : Option Point)
    (hd : s.isDrawing = true) (hp : s.startPos = some sp) :
    (endDrawing s e).redoStack = [] := by
  unfold endDrawing
  rw [hd, hp]
  rfl

/-! ### Claims -/

/-- C1: for every sequence of N committed gestures from the initial state
(no layer switches or clears in between, every restore completing), N calls
to `undo` return the active layer's buffer to the empty initial buffer, and
N subsequent calls to `redo` restore it to its state after the Nth gesture. -/
theorem undo_redo_roundtrip (gs : List Gesture) :
    activeData (undoN gs.length (runGestures initialState gs)) = Buffer.empty ∧
    activeData (redoN gs.length (undoN gs.length (runGestures initialState gs)))
      = activeData (runGestures initialState gs) := by
  have hr0 : initialState.activeLayer < initialState.layers.length := by
    simp [initialState]
  have hc0 : activeData initialState
      = initialState.history.getLast?.getD Buffer.empty := rfl
  obtain ⟨g1, g2, g3, g4, g5⟩ := runGestures_spec gs initialState hr0 hc0 rfl
  set sN := runGestures initialState gs with hsN
  have hr1 : sN.activeLayer < sN.layers.length := by
    rw [g1, g2]
    exact hr0
  have hlen : sN.history.length = gs.length := by
    rw [g3]
    simp [initialState]
  obtain ⟨u1, u2, u3, u4, u5⟩ := undoN_spec gs.length sN hr1 g4 hlen
  set sU := undoN gs.length sN with hsU
  have hr2 : sU.activeLayer < sU.layers.length := by
    rw [u4, u5]
    exact hr1
  have hrd2 : sU.redoStack = sN.history := by
    rw [u2, g5]
    simp
  obtain ⟨r1, r2, r3, r4, r5⟩ := redoN_spec sN.history sU hr2 hrd2
  refine ⟨u3, ?_⟩
  have hiter : redoN gs.length sU = redoN sN.history.length sU := by rw [hlen]
  rw [hiter, r3, u3, g4]

/-- C5: completing any committing gesture (any tool) empties the redo stack,
and a `redo` issued right after the commit is a no-op. -/
theorem commit_clears_redo (s : AppState) (e : Option Point)
    (hd : s.isDrawing = true) (hp : s.startPos.isSome = true) :
    (endDrawing s e).redoStack = [] ∧ redo (endDrawing s e) = endDrawing s e := by
  obtain ⟨sp, hsp⟩ := Option.isSome_iff_exists.mp hp
  have h := endDrawing_redoStack s sp e hd hsp
  exact ⟨h, redo_of_empty _ h⟩

/-- C5 witness: a concrete brush gesture from the initial state. -/
theorem commit_clears_redo_witness :
    (endDrawing (startDrawing initialState (0, 0)) (some (1, 1))).redoStack = [] ∧
    redo (endDrawing (startDrawing initialState (0, 0)) (some (1, 1)))
      = endDrawing (startDrawing initialState (0, 0)) (some (1, 1)) :=
  commit_clears_redo (startDrawing initialState (0, 0)) (some (1, 1)) rfl rfl

/-- C8: `undo` on an empty undo stack leaves the whole state unchanged, and
`redo` on an empty redo stack leaves the whole state unchanged. -/
theorem empty_stack_noops (s : AppState) :
    (s.history = [] → undo s = s) ∧ (s.redoStack = [] → redo s = s) :=
  ⟨undo_of_empty s, redo_of_empty s⟩

/-- C8 witness: the initial state has both stacks empty; both calls fix it. -/
theorem empty_stack_noops_witness :
    undo initialState = initialState ∧ redo initialState = initialState :=
  ⟨(empty_stack_noops initialState).1 rfl, (empty_stack_noops initialState).2 rfl⟩

/-- C9: `clearCanvas` empties the active layer's buffer and blanks the visible
surface, while history, redo stack, active index, layer count and every other
layer's entry are unchanged (no history entry is pushed, so the clear cannot
be undone). -/
theorem clear_active_layer_spec (s : AppState)
    (hr : s.activeLayer < s.layers.length) :
    activeData (clearCanvas s) = Buffer.empty ∧
    (clearCanvas s).canvas = blankCanvas ∧
    (clearCanvas s).history = s.history ∧
    (clearCanvas s).redoStack = s.redoStack ∧
    (clearCanvas s).activeLayer = s.activeLayer ∧
    (clearCanvas s).layers.length = s.layers.length ∧
    ∀ j, j ≠ s.activeLayer → (clearCanvas s).layers.get? j = s.layers.get? j := by
  refine ⟨?_, rfl, rfl, rfl, rfl, setLayerData_length _ _ _, ?_⟩
  · unfold activeData clearCanvas
    simp only
    rw [setLayerData_get?_self _ _ _ hr]
    rfl
  · intro j hj
    exact setLayerData_get?_ne _ _ _ _ hj

/-- C9 witness: clearing on a two-layer state (layer 0 active). -/
theorem clear_active_layer_spec_witness :
    (addLayer initialState).activeLayer < (addLayer initialState).layers.length ∧
    activeData (clearCanvas (addLayer initialState)) = Buffer.empty ∧
    (clearCanvas (addLayer initialState)).history = (addLayer initialState).history ∧
    (clearCanvas (addLayer initialState)).layers.get? 1
      = (addLayer initialState).layers.get? 1 :=
  ⟨Nat.zero_lt_succ 1,
   (clear_active_layer_spec (addLayer initialState) (Nat.zero_lt_succ 1)).1,
   (clear_active_layer_spec (addLayer initialState) (Nat.zero_lt_succ 1)).2.2.1,
   (clear_active_layer_spec (addLayer initialState)
      (Nat.zero_lt_succ 1)).2.2.2.2.2.2 1 one_ne_zero⟩

/-- C4 counterexample: `selectLayer` neither rejects nor clamps: selecting
index 5 on the one-layer initial state leaves the active index referencing no
existing layer, falsifying the claim that the active index always references
an existing layer. -/
theorem select_layer_counterexample :
    (selectLayer initialState 5).activeLayer = 5 ∧
    (selectLayer initialState 5).layers.get?
      (selectLayer initialState 5).activeLayer = none :=
  ⟨rfl, rfl⟩

/-- C4 amended: `selectLayer` performs no validation at all: it stores any
index as given (no rejection, no clamping, layers untouched), and for an
out-of-range index the subsequent `loadLayer` finds no layer to load. -/
theorem select_layer_no_validation (s : AppState) (i : Nat)
    (h : s.layers.length ≤ i) :
    (selectLayer s i).activeLayer = i ∧
    (selectLayer s i).layers = s.layers ∧
    loadLayer (selectLayer s i) = none := by
  refine ⟨rfl, rfl, ?_⟩
  unfold loadLayer selectLayer
  simp only
  rw [List.get?_eq_none.mpr h]
  rfl

/-- C4 witness: selecting index 5 with one layer. -/
theorem select_layer_no_validation_witness :
    initialState.layers.length ≤ 5 ∧
    (selectLayer initialState 5).activeLayer = 5 ∧
    (selectLayer initialState 5).layers = initialState.layers ∧
    loadLayer (selectLayer initialState 5) = none :=
  ⟨by simp [initialState],
   (select_layer_no_validation initialState 5 (by simp [initialState])).1,
   (select_layer_no_validation initialState 5 (by simp [initialState])).2.1,
   (select_layer_no_validation initialState 5 (by simp [initialState])).2.2⟩

/-- C2 amended: `redo` removes and restores the FRONT entry of the redo
stack — the most recently pushed one (LIFO), not the oldest — and appends
that entry to the undo stack. -/
theorem redo_restores_front_lifo (s : AppState) (next : Buffer)
    (rest : List Buffer) (h : s.redoStack = next :: rest)
    (hr : s.activeLayer < s.layers.length) :
    (redo s).redoStack = rest ∧
    (redo s).history = s.history ++ [next] ∧
    activeData (redo s) = next ∧
    (redo s).canvas = decode next := by
  obtain ⟨a, b, c, -, -, f⟩ := redo_spec s next rest h hr
  exact ⟨a, b, c, f⟩

/-- C2 amended witness: a one-entry redo stack over the initial state. -/
theorem redo_restores_front_lifo_witness :
    (redo { initialState with redoStack := [Buffer.empty] }).redoStack = [] ∧
    (redo { initialState with redoStack := [Buffer.empty] }).history
      = initialState.history ++ [Buffer.empty] ∧
    activeData (redo { initialState with redoStack := [Buffer.empty] })
      = Buffer.empty :=
  ⟨(redo_restores_front_lifo _ Buffer.empty [] rfl (Nat.zero_lt_succ 0)).1,
   (redo_restores_front_lifo _ Buffer.empty [] rfl (Nat.zero_lt_succ 0)).2.1,
   (redo_restores_front_lifo _ Buffer.empty [] rfl (Nat.zero_lt_succ 0)).2.2.1⟩

lemma draw_eraser (s : AppState) (p : Point) (sp : Point)
    (ht : s.tool = Tool.eraser) (hd : s.isDrawing = true)
    (hsp : s.startPos = some sp) :
    draw s p = { s with canvas := (clearRect s.canvas (p.1 - s.brushSize / 2)
      (p.2 - s.brushSize / 2) s.brushSize s.brushSize) } := by
  unfold draw
  rw [hd, hsp, ht]
  rfl

lemma clearRect_eraser_eq_square (c : Canvas) (p : Point) (w : Rat) (q : Point) :
    clearRect c (p.1 - w / 2) (p.2 - w / 2) w w q
      = if inSquare p w q then none else c q := by
  show (if p.1 - w / 2 ≤ q.1 ∧ q.1 ≤ p.1 - w / 2 + w ∧
           p.2 - w / 2 ≤ q.2 ∧ q.2 ≤ p.2 - w / 2 + w then none else c q)
      = if inSquare p w q then none else c q
  by_cases h : inSquare p w q
  · obtain ⟨h1, h2, h3, h4⟩ := h
    rw [if_pos ⟨h1, by linarith, h3, by linarith⟩, if_pos ⟨h1, h2, h3, h4⟩]
  · have hc : ¬(p.1 - w / 2 ≤ q.1 ∧ q.1 ≤ p.1 - w / 2 + w ∧
        p.2 - w / 2 ≤ q.2 ∧ q.2 ≤ p.2 - w / 2 + w) := by
      rintro ⟨h1, h2, h3, h4⟩
      exact h ⟨h1, by linarith, h3, by linarith⟩
    rw [if_neg hc, if_neg h]

/-- C7: one eraser application at `p` with stroke width `brushSize` clears
exactly the axis-aligned square of side `brushSize` centred at `p` — points
inside the square become transparent, every point outside keeps its previous
colour. -/
theorem eraser_clears_exact_square (s : AppState) (p q : Point)
    (ht : s.tool = Tool.eraser) (hd : s.isDrawing = true)
    (hp : s.startPos.isSome = true) :
    (draw s p).canvas q = if inSquare p s.brushSize q then none else s.canvas q := by
  obtain ⟨sp, hsp⟩ := Option.isSome_iff_exists.mp hp
  rw [draw_eraser s p sp ht hd hsp]
  exact clearRect_eraser_eq_square s.canvas p s.brushSize q

/-- C7 witness: eraser of width 5 applied at the origin over a fully painted
canvas: the centre pixel is cleared, the pixel at `(3, 0)` (outside the
square, since `3 > 5/2`) keeps its colour. -/
theorem eraser_clears_exact_square_witness :
    ((draw (startDrawing
        { initialState with tool := Tool.eraser, canvas := fun _ => some "#FF6363" }
        (0, 0)) (0, 0)).canvas (0, 0)
      = if inSquare (0, 0) 5 ((0 : Rat), (0 : Rat)) then none
        else some "#FF6363") ∧
    ((draw (startDrawing
        { initialState with tool := Tool.eraser, canvas := fun _ => some "#FF6363" }
        (0, 0)) (0, 0)).canvas (3, 0)
      = if inSquare (0, 0) 5 ((3 : Rat), (0 : Rat)) then none
        else some "#FF6363") :=
  ⟨eraser_clears_exact_square _ (0, 0) (0, 0) rfl rfl rfl,
   eraser_clears_exact_square _ (0, 0) (3, 0) rfl rfl rfl⟩

/-- C6 counterexample: with the eraser active, the initial press clears
NOTHING: after `startDrawing` at the centre of a fully painted canvas, the
pixel at the press point is still painted, falsifying the claim that every
application event including the press clears the square. -/
theorem eraser_press_counterexample :
    (startDrawing
        { initialState with tool := Tool.eraser, canvas := fun _ => some "#000000" }
        (0, 0)).canvas (0, 0)
      = some "#000000" :=
  rfl

/-- C6 amended: with the eraser active, each MOVE event during an active
gesture clears the square of side `brushSize` centred at the event point,
directly and permanently in the active buffer; the initial press itself
leaves every canvas pixel unchanged. -/
theorem eraser_press_noop_move_clears (s : AppState) (p q : Point)
    (ht : s.tool = Tool.eraser) (hd : s.isDrawing = true)
    (hp : s.startPos.isSome = true) (hq : inSquare p s.brushSize q) :
    (startDrawing s p).canvas = s.canvas ∧ (draw s p).canvas q = none := by
  obtain ⟨sp, hsp⟩ := Option.isSome_iff_exists.mp hp
  refine ⟨(startDrawing_fields s p).2.2.2.2.2.2.2, ?_⟩
  rw [draw_eraser s p sp ht hd hsp]
  show clearRect s.canvas (p.1 - s.brushSize / 2) (p.2 - s.brushSize / 2)
      s.brushSize s.brushSize q = none
  rw [clearRect_eraser_eq_square s.canvas p s.brushSize q, if_pos hq]

/-- C6 witness: press then move at the origin with the eraser. -/
theorem eraser_press_noop_move_clears_witness :
    ((startDrawing (startDrawing { initialState with tool := Tool.eraser }
        (0, 0)) (0, 0)).canvas
      = (startDrawing { initialState with tool := Tool.eraser } (0, 0)).canvas) ∧
    (draw (startDrawing { initialState with tool := Tool.eraser } (0, 0))
        (0, 0)).canvas (1, 1) = none :=
  ⟨(eraser_press_noop_move_clears
      (startDrawing { initialState with tool := Tool.eraser } (0, 0))
      (0, 0) (1, 1) rfl rfl rfl
      (by show inSquare (0, 0) 5 (1, 1); refine ⟨?_, ?_, ?_, ?_⟩ <;> norm_num)).1,
   (eraser_press_noop_move_clears
      (startDrawing { initialState with tool := Tool.eraser } (0, 0))
      (0, 0) (1, 1) rfl rfl rfl
      (by show inSquare (0, 0) 5 (1, 1); refine ⟨?_, ?_, ?_, ?_⟩ <;> norm_num)).2⟩

/-- C3 counterexample: with the rectangle tool active and a gesture in
progress, a move event changes NOTHING — the state (hence the visible
surface) after `draw` is identical to the state before, so no live preview is
ever rendered, falsifying the claim that each move event renders a preview of
the shape on the visible surface. -/
theorem rectangle_move_counterexample :
    draw (startDrawing { initialState with tool := Tool.rectangle } (0, 0)) (10, 10)
      = startDrawing { initialState with tool := Tool.rectangle } (0, 0) :=
  rfl

/-- C3 amended: during a rectangle/circle drag, move events render nothing at
all (there is no live preview); the shape appears only at release, when
`endDrawing` draws it into the canvas and immediately encodes it into the
committed snapshot — the rectangle outline band for the rectangle tool, the
circle ring at the release-time radius for the circle tool. -/
theorem shape_move_renders_nothing (s : AppState) (p q sp : Point)
    (ht : s.tool = Tool.rectangle ∨ s.tool = Tool.circle)
    (hd : s.isDrawing = true) (hp : s.startPos = some sp) :
    draw s p = s ∧
    (s.tool = Tool.rectangle →
      (endDrawing s (some q)).canvas
        = strokeRectStroke s.canvas sp.1 sp.2 (q.1 - sp.1) (q.2 - sp.2)
            s.brushSize s.color ∧
      (endDrawing s (some q)).history
        = s.history ++ [Buffer.enc (strokeRectStroke s.canvas sp.1 sp.2
            (q.1 - sp.1) (q.2 - sp.2) s.brushSize s.color)]) ∧
    (s.tool = Tool.circle →
      (endDrawing s (some q)).canvas
        = strokeCircle s.canvas sp ((q.1 - sp.1) ^ 2 + (q.2 - sp.2) ^ 2)
            s.brushSize s.color ∧
      (endDrawing s (some q)).history
        = s.history ++ [Buffer.enc (strokeCircle s.canvas sp
            ((q.1 - sp.1) ^ 2 + (q.2 - sp.2) ^ 2) s.brushSize s.color)]) := by
  refine ⟨?_, ?_, ?_⟩
  · unfold draw
    rw [hd, hp]
    rcases ht with h | h <;> rw [h] <;> rfl
  · intro hrect
    unfold endDrawing
    rw [hd, hp, hrect]
    exact ⟨rfl, rfl⟩
  · intro hcirc
    unfold endDrawing
    rw [hd, hp, hcirc]
    exact ⟨rfl, rfl⟩

/-- C3 witness: drags from the origin on the initial state with each shape
tool: the move to `(5, 5)` changes nothing in either case; the rectangle
release at `(10, 10)` commits the outlined rectangle, and the circle release
at `(3, 4)` commits the ring of squared radius `3² + 4²`. -/
theorem shape_move_renders_nothing_witness :
    draw (startDrawing { initialState with tool := Tool.rectangle } (0, 0)) (5, 5)
      = startDrawing { initialState with tool := Tool.rectangle } (0, 0) ∧
    (endDrawing (startDrawing { initialState with tool := Tool.rectangle } (0, 0))
        (some (10, 10))).canvas
      = strokeRectStroke blankCanvas 0 0 (10 - 0) (10 - 0) 5 "#000000" ∧
    draw (startDrawing { initialState with tool := Tool.circle } (0, 0)) (5, 5)
      = startDrawing { initialState with tool := Tool.circle } (0, 0) ∧
    (endDrawing (startDrawing { initialState with tool := Tool.circle } (0, 0))
        (some (3, 4))).canvas
      = strokeCircle blankCanvas (0, 0) ((3 - 0) ^ 2 + (4 - 0) ^ 2) 5 "#000000" :=
  ⟨(shape_move_renders_nothing _ (5, 5) (10, 10) (0, 0) (Or.inl rfl) rfl rfl).1,
   ((shape_move_renders_nothing _ (5, 5) (10, 10) (0, 0) (Or.inl rfl) rfl rfl).2.1 rfl).1,
   (shape_move_renders_nothing _ (5, 5) (3, 4) (0, 0) (Or.inr rfl) rfl rfl).1,
   ((shape_move_renders_nothing _ (5, 5) (3, 4) (0, 0) (Or.inr rfl) rfl rfl).2.2 rfl).1⟩

/-- First gesture of the C2 trace: rectangle from `(0,0)` to `(10,10)`. -/
def gesture1 : Gesture :=
  { tool := Tool.rectangle, color := "#000000", width := 5,
    start := (0, 0), moves := [], finish := (10, 10) }

/-- Second gesture of the C2 trace: rectangle from `(20,20)` to `(30,30)`. -/
def gesture2 : Gesture :=
  { tool := Tool.rectangle, color := "#000000", width := 5,
    start := (20, 20), moves := [], finish := (30, 30) }

/-- The state after committing the two rectangle gestures. -/
def stateTwoCommits : AppState := runGestures initialState [gesture1, gesture2]

/-- The active layer's snapshot after the first gesture alone. -/
def bufAfterFirst : Buffer := activeData (runGestures initialState [gesture1])

/-- The active layer's snapshot after both gestures. -/
def bufAfterSecond : Buffer := activeData stateTwoCommits

/-- The state after the two commits followed by two undos. -/
def stateTwoUndos : AppState := undo (undo stateTwoCommits)

/-- C2 counterexample: after two rectangle commits and two undos, the redo
stack is `[bufAfterFirst, bufAfterSecond]`.  The entry pushed EARLIEST into
it is `bufAfterSecond` (pushed by the first undo, as the first conjunct
shows), still present at the back; yet `redo` removes and restores the front
entry `bufAfterFirst` — the most recently pushed one — which differs from
`bufAfterSecond`.  So `redo` does not restore the oldest queued entry. -/
theorem redo_not_fifo_counterexample :
    (undo stateTwoCommits).redoStack = [bufAfterSecond] ∧
    stateTwoUndos.redoStack = [bufAfterFirst, bufAfterSecond] ∧
    activeData (redo stateTwoUndos) = bufAfterFirst ∧
    bufAfterFirst ≠ bufAfterSecond := by
  refine ⟨rfl, rfl, rfl, ?_⟩
  intro hcontra
  have h1 : decode bufAfterFirst (20, 20) = none := by
    show strokeRectStroke blankCanvas 0 0 (10 - 0) (10 - 0) 5 "#000000" (20, 20)
        = none
    unfold strokeRectStroke blankCanvas
    norm_num [min_def, max_def]
  have h2 : decode bufAfterSecond (20, 20) = some "#000000" := by
    show strokeRectStroke
        (strokeRectStroke blankCanvas 0 0 (10 - 0) (10 - 0) 5 "#000000")
        20 20 (30 - 20) (30 - 20) 5 "#000000" (20, 20)
        = some "#000000"
    unfold strokeRectStroke
    norm_num [min_def, max_def]
  rw [hcontra] at h1
  rw [h1] at h2
  exact Option.noConfusion h2

/-- The C10 invariant on the layer sequence: the layer at position `i` has id
`i + 1` and name `"Layer " ++ Nat.repr (i + 1)`. -/
def LayersWellFormed (ls : List Layer) : Prop :=
  ∀ i l, ls.get? i = some l →
    l.id = i + 1 ∧ l.name = "Layer " ++ Nat.repr (i + 1)

lemma layersWF_initial : LayersWellFormed initialState.layers := by
  intro i l h
  cases i with
  | zero =>
    obtain rfl : l = { id := 1, name := "Layer 1", data := Buffer.empty } :=
      (Option.some_inj.mp h).symm
    exact ⟨rfl, rfl⟩
  | succ i => exact absurd h (by simp [initialState])

lemma layersWF_setLayerData (ls : List Layer) (i : Nat) (b : Buffer)
    (h : LayersWellFormed ls) : LayersWellFormed (setLayerData ls i b) := by
  intro j l hj
  obtain ⟨hid, hname⟩ := setLayerData_id_name ls i b j
  rw [hj] at hid hname
  cases hg : ls.get? j with
  | none =>
    rw [hg] at hid
    exact absurd hid (by simp)
  | some l' =>
    rw [hg] at hid hname
    simp only [Option.map_some', Option.some_inj] at hid hname
    obtain ⟨h1, h2⟩ := h j l' hg
    exact ⟨hid.trans h1, hname.trans h2⟩

lemma layersWF_addLayer (ls : List Layer) (h : LayersWellFormed ls) :
    LayersWellFormed (ls ++
      [{ id := ls.length + 1, name := "Layer " ++ Nat.repr (ls.length + 1),
         data := Buffer.empty }]) := by
  intro j l hj
  by_cases hlt : j < ls.length
  · rw [List.get?_append hlt] at hj
    exact h j l hj
  · push_neg at hlt
    have hj2 := hj
    rw [List.get?_append_right hlt] at hj2
    have hlen : j - ls.length = 0 := by
      rcases Nat.lt_or_ge (j - ls.length) 1 with h1 | h1
      · omega
      · rw [List.get?_eq_none.mpr (by simpa using h1)] at hj2
        exact absurd hj2 (by simp)
    have hje : j = ls.length := by omega
    rw [hlen] at hj2
    obtain rfl := (Option.some_inj.mp hj2).symm
    subst hje
    exact ⟨rfl, rfl⟩

lemma undo_layers (s : AppState) :
    (undo s).layers = s.layers ∨
    ∃ b, (undo s).layers = setLayerData s.layers s.activeLayer b := by
  unfold undo
  split
  · exact Or.inl rfl
  · exact Or.inr ⟨_, rfl⟩

lemma redo_layers (s : AppState) :
    (redo s).layers = s.layers ∨
    ∃ b, (redo s).layers = setLayerData s.layers s.activeLayer b := by
  unfold redo
  split
  · exact Or.inl rfl
  · exact Or.inr ⟨_, rfl⟩

lemma endDrawing_layers (s : AppState) (e : Option Point) :
    (endDrawing s e).layers = s.layers ∨
    ∃ b, (endDrawing s e).layers = setLayerData s.layers s.activeLayer b := by
  unfold endDrawing
  split
  · split
    · exact Or.inr ⟨_, rfl⟩
    · exact Or.inl rfl
  · exact Or.inl rfl

lemma layersWF_step (s : AppState) (op : Op) (h : LayersWellFormed s.layers) :
    LayersWellFormed (step s op).layers := by
  cases op with
  | press p =>
    show LayersWellFormed (startDrawing s p).layers
    rw [(startDrawing_fields s p).2.2.2.2.1]
    exact h
  | move p =>
    show LayersWellFormed (draw s p).layers
    rw [(draw_fields s p).2.2.2.2.1]
    exact h
  | release e =>
    show LayersWellFormed (endDrawing s e).layers
    rcases endDrawing_layers s e with he | ⟨b, he⟩ <;> rw [he]
    · exact h
    · exact layersWF_setLayerData _ _ _ h
  | setTool t => exact h
  | setColor c => exact h
  | setBrushSize n => exact h
  | undoOp =>
    show LayersWellFormed (undo s).layers
    rcases undo_layers s with he | ⟨b, he⟩ <;> rw [he]
    · exact h
    · exact layersWF_setLayerData _ _ _ h
  | redoOp =>
    show LayersWellFormed (redo s).layers
    rcases redo_layers s with he | ⟨b, he⟩ <;> rw [he]
    · exact h
    · exact layersWF_setLayerData _ _ _ h
  | clearOp => exact layersWF_setLayerData _ _ _ h
  | addLayerOp => exact layersWF_addLayer _ h
  | selectLayerOp i => exact h

lemma layersWF_run (ops : List Op) (init : AppState)
    (h : LayersWellFormed init.layers) :
    LayersWellFormed (ops.foldl step init).layers := by
  induction ops generalizing init with
  | nil => exact h
  | cons op ops ih => exact ih (step init op) (layersWF_step init op h)

/-- C10: in every reachable state, the layer at position `i` has id `i + 1`
and name `"Layer "` followed by `i + 1`; hence ids are unique and strictly
increasing, and the invariant is preserved by every operation (`addLayer`
appends layer `count + 1`; no other operation touches ids, names, order or
length). -/
theorem layer_ids_canonical (s : AppState) (i : Nat) (l : Layer)
    (hreach : Reachable s) (hget : s.layers.get? i = some l) :
    l.id = i + 1 ∧ l.name = "Layer " ++ Nat.repr (i + 1) := by
  obtain ⟨ops, hops⟩ := hreach
  subst hops
  exact layersWF_run ops initialState layersWF_initial i l hget

/-- C10 witness: after one `addLayer` command the layer at position 1 is
`Layer 2` with id 2. -/
theorem layer_ids_canonical_witness :
    (run [Op.addLayerOp]).layers.get? 1
      = some { id := 2, name := "Layer 2", data := Buffer.empty } ∧
    (2 = 1 + 1 ∧ "Layer 2" = "Layer " ++ Nat.repr (1 + 1)) :=
  ⟨rfl, layer_ids_canonical (run [Op.addLayerOp]) 1
    { id := 2, name := "Layer 2", data := Buffer.empty }
    ⟨[Op.addLayerOp], rfl⟩ rfl⟩
